import Mathlib

/-!
Verification development for the zks-vernam worker.

The worker has two source files:
* `src/lib.rs` — the stateless fetch handler: a CORS preflight route, the
  `/ws/key` websocket route streaming binary key chunks with progress and
  completion messages (`send_key_chunks`), the `/key/{count}` bulk route, and
  `/health`.
* `src/vernam_session.rs` — the `VernamSession` durable object: session
  attachment (`SessionState`), the `connected`/`key_chunk`/`session_complete`/
  `error` protocol, the generation loop `generate_and_send_keys`, and a
  hand-written `base64_encode`.

The embedding models the entropy source (`getrandom`) as a stream of per-call
results: call number `i` either fails or yields the requested number of bytes.
All message traffic is modelled structurally (one constructor per JSON message
shape, with the serde tag strings recoverable via `msgType`).
-/

namespace ZksVernam

/-- Chunk size in bytes: `16 * 1024`, identical in both source files. -/
def CHUNK_SIZE : Nat := 16 * 1024

/-- Model of the host entropy source: `bytes i p` is the byte at position `p`
produced by call number `i` of the current operation, and `fails i` tells
whether that call reports failure. -/
structure Rng where
  bytes : Nat → Nat → Nat
  fails : Nat → Bool

/-- `getrandom::getrandom` filling a buffer of `size` bytes on call number
`call`: the filled buffer on success, `none` on entropy failure. Bytes are
reduced mod 256 so the model produces genuine byte values. -/
def getrandom (rng : Rng) (call size : Nat) : Option (List Nat) :=
  if rng.fails call then none
  else some ((List.range size).map fun p => rng.bytes call p % 256)

/-- The buffer produced by a successful `getrandom` call of `CHUNK_SIZE` bytes. -/
def chunkData (rng : Rng) (call : Nat) : List Nat :=
  (List.range CHUNK_SIZE).map fun p => rng.bytes call p % 256

/-- An entropy source that always succeeds and returns zero bytes. -/
def rngZero : Rng := ⟨fun _ _ => 0, fun _ => false⟩

/-- An entropy source whose call number `j` fails, every other call succeeding. -/
def rngFailAt (j : Nat) : Rng := ⟨fun _ _ => 0, fun i => i == j⟩

/-- The base64 alphabet table of `base64_encode` in `vernam_session.rs`. -/
def ALPHABET : List Char :=
  ['A', 'B', 'C', 'D', 'E', 'F', 'G', 'H', 'I', 'J', 'K', 'L', 'M',
   'N', 'O', 'P', 'Q', 'R', 'S', 'T', 'U', 'V', 'W', 'X', 'Y', 'Z',
   'a', 'b', 'c', 'd', 'e', 'f', 'g', 'h', 'i', 'j', 'k', 'l', 'm',
   'n', 'o', 'p', 'q', 'r', 's', 't', 'u', 'v', 'w', 'x', 'y', 'z',
   '0', '1', '2', '3', '4', '5', '6', '7', '8', '9', '+', '/']

/-- Indexing `ALPHABET[i]`. In the source the index is always in bounds because
the inputs are `u8` bytes, so the default is never reached on source inputs. -/
def alpha (i : Nat) : Char := ALPHABET.getD i 'A'

/-- Body of `base64_encode`: processes the byte list in chunks of 3 exactly as
`data.chunks(3)` does, with `b1` and `b2` defaulting to 0 on a short final
chunk and `=` padding filling the remaining output characters. -/
def b64Aux : List Nat → List Char
  | [] => []
  | [b0] =>
      [alpha (b0 >>> 2), alpha (((b0 &&& 0x03) <<< 4) ||| (0 >>> 4)), '=', '=']
  | [b0, b1] =>
      [alpha (b0 >>> 2), alpha (((b0 &&& 0x03) <<< 4) ||| (b1 >>> 4)),
       alpha (((b1 &&& 0x0f) <<< 2) ||| (0 >>> 6)), '=']
  | b0 :: b1 :: b2 :: rest =>
      alpha (b0 >>> 2) :: alpha (((b0 &&& 0x03) <<< 4) ||| (b1 >>> 4)) ::
      alpha (((b1 &&& 0x0f) <<< 2) ||| (b2 >>> 6)) :: alpha (b2 &&& 0x3f) ::
      b64Aux rest

/-- `base64_encode` from `vernam_session.rs`. -/
def base64_encode (data : List Nat) : String := String.mk (b64Aux data)

/-- The RFC 4648 value of a base64 character (spec-side definition for the
refinement statement of the encoder). -/
def b64Index (c : Char) : Option Nat := ALPHABET.findIdx? fun x => x == c

/-- Decodes one final base64 quantum per RFC 4648, handling the two `=` padding
forms (spec-side definition). -/
def decodeLastGroup (c0 c1 c2 c3 : Char) : Option (List Nat) :=
  if c2 = '=' then
    if c3 = '=' then
      match b64Index c0, b64Index c1 with
      | some s0, some s1 => some [s0 * 4 + s1 / 16]
      | _, _ => none
    else none
  else if c3 = '=' then
    match b64Index c0, b64Index c1, b64Index c2 with
    | some s0, some s1, some s2 =>
        some [s0 * 4 + s1 / 16, (s1 % 16) * 16 + s2 / 4]
    | _, _, _ => none
  else
    match b64Index c0, b64Index c1, b64Index c2, b64Index c3 with
    | some s0, some s1, some s2, some s3 =>
        some [s0 * 4 + s1 / 16, (s1 % 16) * 16 + s2 / 4, (s2 % 4) * 64 + s3]
    | _, _, _, _ => none

/-- Standard RFC 4648 base64 decoding (spec-side definition): groups of four
characters, `=` padding allowed only in the final group. -/
def b64DecodeAux : List Char → Option (List Nat)
  | [] => some []
  | c0 :: c1 :: c2 :: c3 :: rest =>
    if rest.isEmpty then decodeLastGroup c0 c1 c2 c3
    else
      match b64Index c0, b64Index c1, b64Index c2, b64Index c3,
          b64DecodeAux rest with
      | some s0, some s1, some s2, some s3, some bs =>
          some ((s0 * 4 + s1 / 16) :: ((s1 % 16) * 16 + s2 / 4) ::
            ((s2 % 4) * 64 + s3) :: bs)
      | _, _, _, _, _ => none
  | _ => none

/-- Standard base64 decoding of a string (spec-side definition). -/
def base64_decode (s : String) : Option (List Nat) := b64DecodeAux s.toList

/-- `ServerMessage` from `vernam_session.rs`; serde tag strings are recovered
by `msgType`. -/
inductive ServerMessage where
  | connected (session_id role : String)
  | keyChunk (index : Nat) (data : String)
  | sessionComplete (total_chunks : Nat)
  | error (message : String)
deriving DecidableEq

/-- The serde `type` tag of a `ServerMessage`. -/
def msgType : ServerMessage → String
  | .connected _ _ => "connected"
  | .keyChunk _ _ => "key_chunk"
  | .sessionComplete _ => "session_complete"
  | .error _ => "error"

/-- `ClientMessage` from `vernam_session.rs`. -/
inductive ClientMessage where
  | requestKey (chunk_count : Nat)
  | endSession
deriving DecidableEq

/-- `SessionState` from `vernam_session.rs`: the complete durable attachment of
a session websocket — identity, role label and the chunk counter, nothing else. -/
structure SessionState where
  session_id : String
  role : String
  chunks_generated : Nat
deriving DecidableEq

/-- Rust `split('/')` on a character list; always yields at least one segment. -/
def splitSlash : List Char → List (List Char)
  | [] => [[]]
  | '/' :: rest => [] :: splitSlash rest
  | c :: rest =>
    match splitSlash rest with
    | [] => [[c]]
    | seg :: segs => (c :: seg) :: segs

/-- `HashMap::get` on query pairs collected with `collect()`: a later binding
of the same key overwrites an earlier one. -/
def hashMapGet (pairs : List (String × String)) (k : String) : Option String :=
  pairs.reverse.lookup k

/-- `VernamSession::fetch`: on a websocket upgrade, derives role and session id,
stores the attachment via `serialize_attachment`, and sends the `connected`
message; otherwise returns the 400 error. The result carries the stored
attachment and the message sent. -/
def VernamSession.fetch (upgrade : Option String) (path : List Char)
    (query : List (String × String)) :
    Except (String × Nat) (SessionState × ServerMessage) :=
  if upgrade ≠ some "websocket" then
    .error ("WebSocket required", 400)
  else
    let role := (hashMapGet query "role").getD "sender"
    let session_id := String.mk (((splitSlash path).getLast?).getD "unknown".toList)
    let session_state : SessionState :=
      { session_id := session_id, role := role, chunks_generated := 0 }
    .ok (session_state, .connected session_state.session_id role)

/-- The `for i in 0..chunk_count` loop of `VernamSession::generate_and_send_keys`
with `rem` iterations remaining and `i` the next chunk index: on entropy failure
it sends a single `error` message and returns early (no completion); after the
last iteration it sends `session_complete` with the full requested count. -/
def genAux (rng : Rng) (total i rem : Nat) : List ServerMessage :=
  match rem with
  | 0 => [.sessionComplete total]
  | rem' + 1 =>
    match getrandom rng i CHUNK_SIZE with
    | none => [.error "Random generation failed"]
    | some chunk => .keyChunk i (base64_encode chunk) :: genAux rng total (i + 1) rem'

/-- `VernamSession::generate_and_send_keys`: the ordered list of messages sent
on the websocket. Note that no clamp is applied to `chunk_count` here. -/
def generate_and_send_keys (rng : Rng) (chunk_count : Nat) : List ServerMessage :=
  genAux rng chunk_count 0 chunk_count

/-- Frames the session handler can send: a `pong`, a JSON server message, or a
websocket close with code and reason. -/
inductive SessionOut where
  | pong
  | msg (m : ServerMessage)
  | close (code : Nat) (reason : String)
deriving DecidableEq

/-- Inbound traffic as seen by `websocket_message`: the plain `"ping"` sentinel,
a successfully JSON-parsed `ClientMessage`, or text that fails to parse (which
the handler silently ignores). -/
inductive SessionIncoming where
  | ping
  | client (m : ClientMessage)
  | malformed
deriving DecidableEq

/-- `VernamSession::websocket_message`: the attachment after the call, paired
with the ordered frames sent during it. -/
def websocket_message (rng : Rng) (att : SessionState) :
    SessionIncoming → SessionState × List SessionOut
  | .ping => (att, [.pong])
  | .malformed => (att, [])
  | .client (.requestKey chunk_count) =>
      (att, (generate_and_send_keys rng chunk_count).map .msg)
  | .client .endSession =>
      (att, [.msg (.sessionComplete 0), .close 1000 "session_complete"])

/-- Folds `websocket_message` over a list of inbound messages, tracking the
attachment across them. -/
def runSession (rng : Rng) (att : SessionState) : List SessionIncoming → SessionState
  | [] => att
  | inc :: rest => runSession rng (websocket_message rng att inc).1 rest

/-- Frames the stateless `/ws/key` handler of `lib.rs` sends. -/
inductive WsOut where
  | binary (data : List Nat)
  | progress (current total : Nat)
  | complete (total : Nat)
  | error (message : String)
deriving DecidableEq

/-- The `for i in 0..count` loop of `send_key_chunks` in `lib.rs` (with `count`
already clamped): each chunk goes out as a binary frame, a progress message
follows every 100 chunks and after the last chunk, an entropy failure sends one
`error` message and returns early, and the loop ends with a `complete` message. -/
def sendAux (rng : Rng) (count i rem : Nat) : List WsOut :=
  match rem with
  | 0 => [.complete count]
  | rem' + 1 =>
    match getrandom rng i CHUNK_SIZE with
    | none => [.error "Random generation failed"]
    | some chunk =>
      .binary chunk ::
        ((if i % 100 == 0 || i == count - 1 then [.progress (i + 1) count] else []) ++
          sendAux rng count (i + 1) rem')

/-- `send_key_chunks` from `lib.rs`: clamps the requested count to 100000 and
runs the generation loop. -/
def send_key_chunks (rng : Rng) (count : Nat) : List WsOut :=
  let count := min count 100000
  sendAux rng count 0 count

/-- Responses in the HTTP model: status code, header pairs in the order they are
set, and a body that is either raw key bytes or text. -/
inductive Body where
  | bytes (data : List Nat)
  | text (s : String)
deriving DecidableEq

structure HttpResponse where
  status : Nat
  headers : List (String × String)
  body : Body
deriving DecidableEq

/-- `Response::error(msg, code)`. -/
def errorResponse (msg : String) (code : Nat) : HttpResponse :=
  { status := code, headers := [], body := .text msg }

/-- `cors_headers` from `lib.rs`: replaces the headers with a fresh set holding
exactly the three CORS headers. -/
def cors_headers (r : HttpResponse) : HttpResponse :=
  { r with headers :=
      [("Access-Control-Allow-Origin", "*"),
       ("Access-Control-Allow-Methods", "GET, POST, OPTIONS"),
       ("Access-Control-Allow-Headers", "Content-Type, Upgrade")] }

/-- Rust `str::parse::<usize>()`: an optional leading `+`, then at least one
ASCII digit and nothing else, rejecting values that overflow 64-bit `usize`. -/
def parseUsize (s : List Char) : Option Nat :=
  let ds := match s with
    | '+' :: rest => rest
    | _ => s
  if ds.isEmpty then none
  else if ds.all (fun c => c.isDigit) then
    let v := ds.foldl (fun a c => a * 10 + (c.toNat - 48)) 0
    if v < 2 ^ 64 then some v else none
  else none

/-- Rust `path.starts_with("/key/")`. -/
def startsWithKey : List Char → Bool
  | '/' :: 'k' :: 'e' :: 'y' :: '/' :: _ => true
  | _ => false

/-- Rust `path.trim_start_matches("/key/")`: strips every leading occurrence of
the pattern. -/
def trimKeyMatches : List Char → List Char
  | '/' :: 'k' :: 'e' :: 'y' :: '/' :: rest => trimKeyMatches rest
  | l => l

/-- The parts of an inbound request that `main` in `lib.rs` inspects. -/
structure ReqModel where
  method_is_options : Bool
  path : List Char
  upgrade : Option String

/-- Result of the `main` fetch handler: a plain response, or an accepted
websocket upgrade. -/
inductive MainResult where
  | response (r : HttpResponse)
  | websocket
deriving DecidableEq

/-- The `main` fetch handler of `lib.rs`: CORS preflight, the `/ws/key` upgrade
route, the `/key/{count}` bulk route, `/health`, and the 404 fallback. -/
def main_fetch (rng : Rng) (req : ReqModel) : MainResult :=
  if req.method_is_options then
    .response (cors_headers { status := 200, headers := [], body := .text "" })
  else if req.path = "/ws/key".toList then
    if req.upgrade = some "websocket" then .websocket
    else .response (cors_headers (errorResponse "WebSocket required" 400))
  else if startsWithKey req.path then
    let chunk_count := min ((parseUsize (trimKeyMatches req.path)).getD 1) 1000
    let total_size := chunk_count * CHUNK_SIZE
    match getrandom rng 0 total_size with
    | none => .response (cors_headers (errorResponse "Random generation failed" 500))
    | some key_data =>
        .response { status := 200,
                    headers := [("Content-Type", "application/octet-stream"),
                                ("Access-Control-Allow-Origin", "*")],
                    body := .bytes key_data }
  else if req.path = "/health".toList then
    .response (cors_headers { status := 200, headers := [], body := .text "ZKS Vernam OK" })
  else .response (cors_headers (errorResponse "Not Found" 404))

/-- Status of a `MainResult` (0 for an accepted websocket upgrade). -/
def resultStatus : MainResult → Nat
  | .response r => r.status
  | .websocket => 0

/-- Headers of a `MainResult`. -/
def resultHeaders : MainResult → List (String × String)
  | .response r => r.headers
  | .websocket => []

/-- Body of a `MainResult`. -/
def resultBody : MainResult → Body
  | .response r => r.body
  | .websocket => .text ""

/-- Number of raw key bytes in a body; `none` for a text body. -/
def byteLen : Body → Option Nat
  | .bytes data => some data.length
  | .text _ => none

/-- Indices of the `key_chunk` messages in a session message list, in order. -/
def keyChunkIndices (l : List ServerMessage) : List Nat :=
  l.filterMap fun m => match m with
    | .keyChunk i _ => some i
    | _ => none

/-- Whether a session message is terminal (`session_complete` or `error`). -/
def isTerminal : ServerMessage → Bool
  | .sessionComplete _ => true
  | .error _ => true
  | _ => false

/-- Whether a session message is a `key_chunk`. -/
def isKeyChunk : ServerMessage → Bool
  | .keyChunk _ _ => true
  | _ => false

/-- Whether a stateless frame is a binary key chunk. -/
def isBinary : WsOut → Bool
  | .binary _ => true
  | _ => false

/-- Whether a stateless frame is an `error` message. -/
def isWsError : WsOut → Bool
  | .error _ => true
  | _ => false

/-- Whether a stateless frame is a `complete` message. -/
def isWsComplete : WsOut → Bool
  | .complete _ => true
  | _ => false

/-- The `(current, total)` fields of the progress messages, in order. -/
def progressList (l : List WsOut) : List (Nat × Nat) :=
  l.filterMap fun m => match m with
    | .progress c t => some (c, t)
    | _ => none

/-! ### Generic list helpers -/

theorem countP_map_const_true {α β : Type} (f : α → β) (p : β → Bool)
    (h : ∀ a, p (f a) = true) (l : List α) : (l.map f).countP p = l.length := by
  induction l with
  | nil => rfl
  | cons a l ih => simp [List.countP_cons, h, ih]

theorem countP_map_const_false {α β : Type} (f : α → β) (p : β → Bool)
    (h : ∀ a, p (f a) = false) (l : List α) : (l.map f).countP p = 0 := by
  induction l with
  | nil => rfl
  | cons a l ih => simp [List.countP_cons, h, ih]

theorem countP_flatMap_zero {α β : Type} (f : α → List β) (p : β → Bool)
    (l : List α) (h : ∀ a, (f a).countP p = 0) : (l.flatMap f).countP p = 0 := by
  induction l with
  | nil => rfl
  | cons a l ih => simp [List.flatMap_cons, List.countP_append, h, ih]

theorem getLast?_map_eq {α β : Type} (f : α → β) :
    ∀ l : List α, (l.map f).getLast? = (l.getLast?).map f := by
  intro l
  induction l with
  | nil => rfl
  | cons a l ih =>
    cases l with
    | nil => rfl
    | cons b t => simpa using ih

/-! ### Session generation loop -/

theorem genAux_success (rng : Rng) (total : Nat) (hs : ∀ k, rng.fails k = false) :
    ∀ rem i, genAux rng total i rem =
      ((List.range' i rem).map fun k =>
          ServerMessage.keyChunk k (base64_encode (chunkData rng k)))
        ++ [ServerMessage.sessionComplete total] := by
  intro rem
  induction rem with
  | zero => intro i; rfl
  | succ rem ih =>
    intro i
    simp only [genAux, getrandom, hs i, Bool.false_eq_true, if_false, List.range']
    rw [ih (i + 1)]
    simp [chunkData]

theorem genAux_failure (rng : Rng) (total j : Nat)
    (hj : rng.fails j = true) (hbefore : ∀ k, k < j → rng.fails k = false) :
    ∀ rem i, i ≤ j → j < i + rem →
      genAux rng total i rem =
        ((List.range' i (j - i)).map fun k =>
            ServerMessage.keyChunk k (base64_encode (chunkData rng k)))
          ++ [ServerMessage.error "Random generation failed"] := by
  intro rem
  induction rem with
  | zero => intro i h1 h2; omega
  | succ rem ih =>
    intro i h1 h2
    rcases Nat.eq_or_lt_of_le h1 with rfl | hlt
    · simp [genAux, getrandom, hj, Nat.sub_self, List.range']
    · have h3 : j - i = (j - (i + 1)) + 1 := by omega
      rw [h3]
      simp only [genAux, getrandom, hbefore i hlt, Bool.false_eq_true, if_false,
        List.range']
      rw [ih (i + 1) (by omega) (by omega)]
      simp [chunkData]

theorem keyChunkIndices_map_chunks (f : Nat → String) :
    ∀ l : List Nat,
      keyChunkIndices (l.map fun k => ServerMessage.keyChunk k (f k)) = l := by
  intro l
  induction l with
  | nil => rfl
  | cons a l ih =>
    simp only [keyChunkIndices, List.map_cons, List.filterMap_cons] at *
    simpa using ih

theorem filter_terminal_chunks (f : Nat → String) :
    ∀ l : List Nat,
      (l.map fun k => ServerMessage.keyChunk k (f k)).filter isTerminal = [] := by
  intro l
  induction l with
  | nil => rfl
  | cons a l ih => simp [isTerminal, ih]

theorem gen_keyChunk_count (rng : Rng) (n : Nat) (hs : ∀ k, rng.fails k = false) :
    (generate_and_send_keys rng n).countP isKeyChunk = n := by
  rw [generate_and_send_keys, genAux_success rng n hs n 0, List.countP_append,
    countP_map_const_true _ _ (fun a => rfl)]
  have hc : List.countP isKeyChunk [ServerMessage.sessionComplete n] = 0 := rfl
  simp [hc, List.length_range']

/-! ### Session state machine -/

theorem step_preserves_att (rng : Rng) (att : SessionState) (inc : SessionIncoming) :
    (websocket_message rng att inc).1 = att := by
  cases inc with
  | ping => rfl
  | malformed => rfl
  | client m => cases m <;> rfl

theorem runSession_const :
    ∀ (incs : List SessionIncoming) (rng : Rng) (att : SessionState),
      runSession rng att incs = att := by
  intro incs
  induction incs with
  | nil => intro rng att; rfl
  | cons inc rest ih =>
    intro rng att
    rw [runSession, step_preserves_att]
    exact ih rng att

theorem splitSlash_ne_nil (l : List Char) : splitSlash l ≠ [] := by
  rw [splitSlash.eq_def]
  split
  · simp
  · simp
  · split <;> simp

/-! ### Stateless streaming loop -/

theorem progressList_cons_binary (d : List Nat) (l : List WsOut) :
    progressList (.binary d :: l) = progressList l := rfl

theorem progressList_cons_progress (x y : Nat) (l : List WsOut) :
    progressList (.progress x y :: l) = (x, y) :: progressList l := rfl

theorem countP_ite_progress (b : Bool) (x y : Nat) (p : WsOut → Bool)
    (hp : p (.progress x y) = false) :
    (if b = true then [WsOut.progress x y] else []).countP p = 0 := by
  cases b <;> simp [List.countP_cons, hp]

theorem sendAux_success (rng : Rng) (c : Nat) (hs : ∀ k, rng.fails k = false) :
    ∀ rem i, sendAux rng c i rem =
      ((List.range' i rem).flatMap fun k =>
          WsOut.binary (chunkData rng k) ::
            (if k % 100 == 0 || k == c - 1 then [WsOut.progress (k + 1) c] else []))
        ++ [WsOut.complete c] := by
  intro rem
  induction rem with
  | zero => intro i; rfl
  | succ rem ih =>
    intro i
    simp only [sendAux, getrandom, hs i, Bool.false_eq_true, if_false, List.range',
      List.flatMap_cons]
    rw [ih (i + 1)]
    simp [chunkData, List.cons_append, List.append_assoc]

theorem sendAux_failure (rng : Rng) (c j : Nat)
    (hj : rng.fails j = true) (hbefore : ∀ k, k < j → rng.fails k = false) :
    ∀ rem i, i ≤ j → j < i + rem →
      sendAux rng c i rem =
        ((List.range' i (j - i)).flatMap fun k =>
            WsOut.binary (chunkData rng k) ::
              (if k % 100 == 0 || k == c - 1 then [WsOut.progress (k + 1) c] else []))
          ++ [WsOut.error "Random generation failed"] := by
  intro rem
  induction rem with
  | zero => intro i h1 h2; omega
  | succ rem ih =>
    intro i h1 h2
    rcases Nat.eq_or_lt_of_le h1 with rfl | hlt
    · simp [sendAux, getrandom, hj, Nat.sub_self, List.range']
    · have h3 : j - i = (j - (i + 1)) + 1 := by omega
      rw [h3]
      simp only [sendAux, getrandom, hbefore i hlt, Bool.false_eq_true, if_false,
        List.range', List.flatMap_cons]
      rw [ih (i + 1) (by omega) (by omega)]
      simp [chunkData, List.cons_append, List.append_assoc]

theorem send_binary_count (rng : Rng) (c : Nat) (hs : ∀ k, rng.fails k = false) :
    ∀ rem i, (sendAux rng c i rem).countP isBinary = rem := by
  intro rem
  induction rem with
  | zero => intro i; rfl
  | succ rem ih =>
    intro i
    simp only [sendAux, getrandom, hs i, Bool.false_eq_true, if_false,
      List.countP_cons, List.countP_append, countP_ite_progress _ _ _ isBinary rfl,
      ih (i + 1)]
    simp [isBinary]

theorem sendAux_binary_count_le (rng : Rng) (c : Nat) :
    ∀ rem i, (sendAux rng c i rem).countP isBinary ≤ rem := by
  intro rem
  induction rem with
  | zero => intro i; simp [sendAux, List.countP_cons, isBinary]
  | succ rem ih =>
    intro i
    cases hg : getrandom rng i CHUNK_SIZE with
    | none => simp [sendAux, hg, List.countP_cons, isBinary]
    | some chunk =>
      simp only [sendAux, hg, List.countP_cons, List.countP_append,
        countP_ite_progress _ _ _ isBinary rfl]
      have h := ih (i + 1)
      simp [isBinary]
      omega

theorem sendAux_progress (rng : Rng) (c : Nat) (hs : ∀ k, rng.fails k = false) :
    ∀ rem i, progressList (sendAux rng c i rem) =
      ((List.range' i rem).filter fun k => k % 100 == 0 || k == c - 1).map
        fun k => (k + 1, c) := by
  intro rem
  induction rem with
  | zero => intro i; rfl
  | succ rem ih =>
    intro i
    simp only [sendAux, getrandom, hs i, Bool.false_eq_true, if_false, List.range']
    rw [progressList_cons_binary]
    by_cases hcond : (i % 100 == 0 || i == c - 1) = true
    · rw [if_pos hcond, List.singleton_append, progressList_cons_progress, ih (i + 1)]
      simp [List.filter_cons, hcond]
    · rw [if_neg hcond, List.nil_append, ih (i + 1)]
      simp only [List.filter_cons]
      rw [if_neg hcond]

theorem filter_range_getLast (p : Nat → Bool) (m : Nat) (hm : 0 < m)
    (hp : p (m - 1) = true) :
    ((List.range m).filter p).getLast? = some (m - 1) := by
  obtain ⟨m', rfl⟩ : ∃ m', m = m' + 1 := ⟨m - 1, by omega⟩
  simp only [Nat.add_sub_cancel] at hp ⊢
  rw [List.range_succ, List.filter_append]
  have h1 : List.filter p [m'] = [m'] := by simp [List.filter_cons, hp]
  rw [h1, List.getLast?_concat]

/-! ### Base64 -/

theorem getD_mem_or_default {α : Type} (l : List α) (d : α) :
    ∀ i, l.getD i d ∈ l ∨ l.getD i d = d := by
  induction l with
  | nil => intro i; right; cases i <;> rfl
  | cons a t ih =>
    intro i
    cases i with
    | zero => left; simp
    | succ n =>
      rcases ih n with h | h
      · left
        simp only [List.getD_cons_succ]
        exact List.mem_cons_of_mem a h
      · right
        simpa using h

theorem alpha_mem (i : Nat) : alpha i ∈ ALPHABET := by
  rcases getD_mem_or_default ALPHABET 'A' i with h | h
  · exact h
  · rw [alpha, h]; decide

theorem alpha_ne_pad (i : Nat) : alpha i ≠ '=' := by
  have h := alpha_mem i
  intro he
  rw [he] at h
  exact absurd h (by decide)

theorem b64Index_alpha_fin : ∀ s : Fin 64, b64Index (alpha s.val) = some s.val := by
  decide

theorem b64Index_alpha (s : Nat) (h : s < 64) : b64Index (alpha s) = some s :=
  b64Index_alpha_fin ⟨s, h⟩

theorem shiftr_eq (b k : Nat) : b >>> k = b / 2 ^ k := Nat.shiftRight_eq_div_pow b k

theorem and3_eq (b : Nat) : b &&& 3 = b % 4 := by
  simpa using Nat.and_pow_two_sub_one_eq_mod b 2

theorem and15_eq (b : Nat) : b &&& 15 = b % 16 := by
  simpa using Nat.and_pow_two_sub_one_eq_mod b 4

theorem and63_eq (b : Nat) : b &&& 63 = b % 64 := by
  simpa using Nat.and_pow_two_sub_one_eq_mod b 6

theorem lor_small (a b k : Nat) (hb : b < 2 ^ k) : (a <<< k) ||| b = a * 2 ^ k + b := by
  rw [Nat.shiftLeft_eq, Nat.mul_comm]
  exact (Nat.mul_add_lt_is_or hb a).symm

theorem encS0 (b0 : Nat) : b0 >>> 2 = b0 / 4 := by
  rw [shiftr_eq]; norm_num

theorem encS1 (b0 b1 : Nat) (h1 : b1 < 256) :
    ((b0 &&& 3) <<< 4) ||| (b1 >>> 4) = (b0 % 4) * 16 + b1 / 16 := by
  have hb : b1 >>> 4 < 2 ^ 4 := by rw [shiftr_eq]; omega
  rw [and3_eq, lor_small _ _ _ hb, shiftr_eq]
  norm_num

theorem encS1pad (b0 : Nat) : ((b0 &&& 3) <<< 4) ||| (0 >>> 4) = (b0 % 4) * 16 := by
  have h0 : (0 : Nat) >>> 4 = 0 := rfl
  rw [h0, Nat.or_zero, and3_eq, Nat.shiftLeft_eq]

theorem encS2 (b1 b2 : Nat) (h2 : b2 < 256) :
    ((b1 &&& 15) <<< 2) ||| (b2 >>> 6) = (b1 % 16) * 4 + b2 / 64 := by
  have hb : b2 >>> 6 < 2 ^ 2 := by rw [shiftr_eq]; omega
  rw [and15_eq, lor_small _ _ _ hb, shiftr_eq]
  norm_num

theorem encS2pad (b1 : Nat) : ((b1 &&& 15) <<< 2) ||| (0 >>> 6) = (b1 % 16) * 4 := by
  have h0 : (0 : Nat) >>> 6 = 0 := rfl
  rw [h0, Nat.or_zero, and15_eq, Nat.shiftLeft_eq]

theorem b64Aux_ne_nil : ∀ l : List Nat, l ≠ [] → b64Aux l ≠ [] := by
  intro l hl
  rw [b64Aux.eq_def]
  split
  · exact absurd rfl hl
  · simp
  · simp
  · simp

theorem b64Aux_length : ∀ data : List Nat,
    (b64Aux data).length = 4 * ((data.length + 2) / 3)
  | [] => rfl
  | [_] => by simp [b64Aux]
  | [_, _] => by simp [b64Aux]
  | _ :: _ :: _ :: rest => by
      have ih := b64Aux_length rest
      simp only [b64Aux, List.length_cons, ih]
      omega

theorem b64Aux_chars : ∀ data : List Nat, ∀ c ∈ b64Aux data, c ∈ ALPHABET ∨ c = '='
  | [] => by intro c hc; cases hc
  | [b0] => by
      intro c hc
      simp only [b64Aux, List.mem_cons, List.not_mem_nil, or_false] at hc
      rcases hc with rfl | rfl | rfl | rfl
      · exact Or.inl (alpha_mem _)
      · exact Or.inl (alpha_mem _)
      · exact Or.inr rfl
      · exact Or.inr rfl
  | [b0, b1] => by
      intro c hc
      simp only [b64Aux, List.mem_cons, List.not_mem_nil, or_false] at hc
      rcases hc with rfl | rfl | rfl | rfl
      · exact Or.inl (alpha_mem _)
      · exact Or.inl (alpha_mem _)
      · exact Or.inl (alpha_mem _)
      · exact Or.inr rfl
  | b0 :: b1 :: b2 :: rest => by
      intro c hc
      simp only [b64Aux, List.mem_cons] at hc
      rcases hc with rfl | rfl | rfl | rfl | hc
      · exact Or.inl (alpha_mem _)
      · exact Or.inl (alpha_mem _)
      · exact Or.inl (alpha_mem _)
      · exact Or.inl (alpha_mem _)
      · exact b64Aux_chars rest c hc

theorem b64_roundtrip_aux : ∀ data : List Nat, (∀ b ∈ data, b < 256) →
    b64DecodeAux (b64Aux data) = some data
  | [], _ => rfl
  | [b0], h => by
      have hb0 : b0 < 256 := h b0 (by simp)
      simp only [b64Aux, encS0, encS1pad]
      simp only [b64DecodeAux, List.isEmpty_nil, if_true]
      rw [decodeLastGroup, if_pos rfl, if_pos rfl,
        b64Index_alpha _ (by omega), b64Index_alpha _ (by omega)]
      simp
      omega
  | [b0, b1], h => by
      have hb0 : b0 < 256 := h b0 (by simp)
      have hb1 : b1 < 256 := h b1 (by simp)
      simp only [b64Aux, encS0, encS1 b0 b1 hb1, encS2pad]
      simp only [b64DecodeAux, List.isEmpty_nil, if_true]
      rw [decodeLastGroup, if_neg (alpha_ne_pad _), if_pos rfl,
        b64Index_alpha _ (by omega), b64Index_alpha _ (by omega),
        b64Index_alpha _ (by omega)]
      simp
      constructor
      · omega
      · omega
  | b0 :: b1 :: b2 :: rest, h => by
      have hb0 : b0 < 256 := h b0 (by simp)
      have hb1 : b1 < 256 := h b1 (by simp)
      have hb2 : b2 < 256 := h b2 (by simp)
      have ih := b64_roundtrip_aux rest (fun b hb => h b (by simp [hb]))
      cases rest with
      | nil =>
          simp only [b64Aux, encS0, encS1 b0 b1 hb1, encS2 b1 b2 hb2, and63_eq]
          simp only [b64DecodeAux, List.isEmpty_nil, if_true]
          rw [decodeLastGroup, if_neg (alpha_ne_pad _), if_neg (alpha_ne_pad _),
            b64Index_alpha _ (by omega), b64Index_alpha _ (by omega),
            b64Index_alpha _ (by omega), b64Index_alpha _ (by omega)]
          simp
          refine ⟨by omega, by omega, by omega⟩
      | cons r0 rtail =>
          have hne : b64Aux (r0 :: rtail) ≠ [] := b64Aux_ne_nil _ (by simp)
          cases hb : b64Aux (r0 :: rtail) with
          | nil => exact absurd hb hne
          | cons x xs =>
              rw [hb] at ih
              simp only [b64Aux, encS0, encS1 b0 b1 hb1, encS2 b1 b2 hb2, and63_eq, hb]
              simp only [b64DecodeAux, List.isEmpty_cons, if_false]
              rw [b64Index_alpha _ (by omega), b64Index_alpha _ (by omega),
                b64Index_alpha _ (by omega), b64Index_alpha _ (by omega), ih]
              simp
              refine ⟨by omega, by omega, by omega⟩

theorem keyChunkIndices_append (l1 l2 : List ServerMessage) :
    keyChunkIndices (l1 ++ l2) = keyChunkIndices l1 ++ keyChunkIndices l2 := by
  simp [keyChunkIndices, List.filterMap_append]

/-! ### Claim theorems (session side) -/

/-- C1 (corrected), counterexample to the original claim: on the session-scoped
endpoint, `request_key` with `chunk_count = 100001` generates 100001 key chunks —
not `min 100001 100000 = 100000` as the claim states — because
`VernamSession::generate_and_send_keys` applies no clamp. -/
theorem c1_counterexample_session_no_clamp :
    (generate_and_send_keys rngZero 100001).countP isKeyChunk ≠ min 100001 100000 := by
  rw [gen_keyChunk_count rngZero 100001 (fun k => rfl)]
  decide

/-- C1 (amended): when the random source succeeds on every call, the stateless
streaming endpoint (`send_key_chunks`) generates and delivers exactly
`min n 100000` chunks, and never more than 100000 for any entropy source; the
session-scoped endpoint (`generate_and_send_keys`) applies no clamp and
generates exactly `n` chunks. -/
theorem c1_chunk_clamping_amended (rng : Rng) (n : Nat)
    (hs : ∀ k, rng.fails k = false) :
    (send_key_chunks rng n).countP isBinary = min n 100000 ∧
    (generate_and_send_keys rng n).countP isKeyChunk = n ∧
    ∀ rng2 : Rng, (send_key_chunks rng2 n).countP isBinary ≤ 100000 := by
  refine ⟨?_, gen_keyChunk_count rng n hs, ?_⟩
  · rw [send_key_chunks]
    exact send_binary_count rng (min n 100000) hs (min n 100000) 0
  · intro rng2
    rw [send_key_chunks]
    calc (sendAux rng2 (min n 100000) 0 (min n 100000)).countP isBinary
        ≤ min n 100000 := sendAux_binary_count_le rng2 _ _ 0
      _ ≤ 100000 := Nat.min_le_right n 100000

/-- Witness for C1's amended theorem at `rng = rngZero`, `n = 5`. -/
theorem c1_witness :
    (∀ k, rngZero.fails k = false) ∧
    ((send_key_chunks rngZero 5).countP isBinary = min 5 100000 ∧
      (generate_and_send_keys rngZero 5).countP isKeyChunk = 5 ∧
      ∀ rng2 : Rng, (send_key_chunks rng2 5).countP isBinary ≤ 100000) :=
  ⟨fun _ => rfl, c1_chunk_clamping_amended rngZero 5 (fun _ => rfl)⟩

/-- C2 (confirmed): the durable attachment is exactly a `SessionState` — identity,
role and chunk counter. No handler invocation changes it, any sequence of inbound
messages leaves it equal to what `fetch` stored, the resulting attachment is
independent of the entropy source (so no generated key bytes are stored in or
reachable from session state, on success and error paths alike), and `fetch`
stores it with `chunks_generated = 0`. -/
theorem c2_no_key_bytes_in_session_state :
    (∀ (rng : Rng) (att : SessionState) (inc : SessionIncoming),
        (websocket_message rng att inc).1 = att) ∧
    (∀ (rng : Rng) (att : SessionState) (incs : List SessionIncoming),
        runSession rng att incs = att) ∧
    (∀ (rng rng2 : Rng) (att : SessionState) (incs : List SessionIncoming),
        runSession rng att incs = runSession rng2 att incs) ∧
    (∀ (path : List Char) (query : List (String × String)),
        (VernamSession.fetch (some "websocket") path query).map
            (fun pr => pr.1.chunks_generated) = Except.ok 0) := by
  refine ⟨step_preserves_att, fun rng att incs => runSession_const incs rng att, ?_, ?_⟩
  · intro rng rng2 att incs
    rw [runSession_const incs rng att, runSession_const incs rng2 att]
  · intro path query
    simp [VernamSession.fetch, Except.map]

/-- C3 (confirmed): a session-scoped `request_key` with `0 < n ≤ 100000` and a
fully successful random source produces exactly the `key_chunk` messages with
indices `0, 1, ..., n-1` in order, followed by exactly one `session_complete`
carrying `total_chunks = n`, and no other terminal message. -/
theorem c3_session_stream_shape (rng : Rng) (n : Nat)
    (_h1 : 0 < n) (_h2 : n ≤ 100000) (hs : ∀ k, rng.fails k = false) :
    generate_and_send_keys rng n =
      ((List.range n).map fun k =>
          ServerMessage.keyChunk k (base64_encode (chunkData rng k)))
        ++ [ServerMessage.sessionComplete n] ∧
    keyChunkIndices (generate_and_send_keys rng n) = List.range n ∧
    (generate_and_send_keys rng n).filter isTerminal =
      [ServerMessage.sessionComplete n] := by
  have hmain := genAux_success rng n hs n 0
  rw [List.range_eq_range']
  refine ⟨by rw [generate_and_send_keys, hmain], ?_, ?_⟩
  · rw [generate_and_send_keys, hmain, keyChunkIndices_append, keyChunkIndices_map_chunks]
    simp [keyChunkIndices]
  · rw [generate_and_send_keys, hmain, List.filter_append, filter_terminal_chunks]
    simp [isTerminal]

/-- Witness for C3 at `rng = rngZero`, `n = 2`. -/
theorem c3_witness :
    (0 < 2 ∧ 2 ≤ 100000 ∧ ∀ k, rngZero.fails k = false) ∧
    keyChunkIndices (generate_and_send_keys rngZero 2) = List.range 2 ∧
    (generate_and_send_keys rngZero 2).filter isTerminal =
      [ServerMessage.sessionComplete 2] :=
  ⟨⟨by decide, by decide, fun k => rfl⟩,
    (c3_session_stream_shape rngZero 2 (by decide) (by decide) (fun k => rfl)).2⟩

/-- C4 (code bug): the spec requires `chunks_generated` to be incremented by `n`
after each completed `request_key{n}` transaction, but no code path ever updates
the attachment after `fetch` stores it with value 0. Here a `request_key{1}`
transaction completes (its terminal message is `session_complete` with
`total_chunks = 1`), yet the stored counter is still 0 instead of 1. -/
theorem c4_chunks_generated_never_incremented :
    (websocket_message rngZero ⟨"s", "sender", 0⟩
        (.client (.requestKey 1))).1.chunks_generated = 0 ∧
    ((websocket_message rngZero ⟨"s", "sender", 0⟩ (.client (.requestKey 1))).2.filter
        fun o => match o with
          | .msg m => isTerminal m
          | _ => false) =
      [.msg (.sessionComplete 1)] :=
  ⟨rfl, rfl⟩

/-- C10 (confirmed): on a session-scoped connect over a websocket upgrade, the
role defaults to `"sender"` when the `role` query parameter is absent (via
`getD`), the session id is the last `/`-separated segment of the request path
(`"unknown"` only if `split('/')` yielded no segment, which never happens since
`splitSlash` always yields one), and both the stored attachment and the
`connected` message carry exactly this derived identity and role. -/
theorem c10_connect_identity (path : List Char) (query : List (String × String)) :
    VernamSession.fetch (some "websocket") path query =
      Except.ok
        ({ session_id := String.mk (((splitSlash path).getLast?).getD "unknown".toList),
           role := (hashMapGet query "role").getD "sender",
           chunks_generated := 0 },
         .connected (String.mk (((splitSlash path).getLast?).getD "unknown".toList))
           ((hashMapGet query "role").getD "sender")) ∧
    splitSlash path ≠ [] := by
  refine ⟨?_, splitSlash_ne_nil path⟩
  simp [VernamSession.fetch]

/-! ### Claim theorems (base64) -/

/-- C5 (confirmed): `base64_encode` produces exactly the standard RFC 4648
base64 encoding with `=` padding and no line wrapping: the output length is
`4 * ceil(len/3)`, every output character is drawn from the standard alphabet
plus `=`, and standard base64 decoding recovers the original bytes. -/
theorem c5_base64_rfc4648 (data : List Nat) (h : ∀ b ∈ data, b < 256) :
    (base64_encode data).length = 4 * ((data.length + 2) / 3) ∧
    (∀ c ∈ (base64_encode data).toList, c ∈ ALPHABET ∨ c = '=') ∧
    base64_decode (base64_encode data) = some data := by
  refine ⟨?_, ?_, ?_⟩
  · rw [base64_encode]
    show (b64Aux data).length = _
    exact b64Aux_length data
  · intro c hc
    exact b64Aux_chars data c hc
  · rw [base64_decode, base64_encode]
    show b64DecodeAux (b64Aux data) = _
    exact b64_roundtrip_aux data h

/-- Witness for C5 at the byte list `[0, 255, 77]`. -/
theorem c5_witness :
    (∀ b ∈ [0, 255, 77], b < 256) ∧
    ((base64_encode [0, 255, 77]).length = 4 * (([0, 255, 77].length + 2) / 3) ∧
      (∀ c ∈ (base64_encode [0, 255, 77]).toList, c ∈ ALPHABET ∨ c = '=') ∧
      base64_decode (base64_encode [0, 255, 77]) = some [0, 255, 77]) :=
  ⟨by decide, c5_base64_rfc4648 [0, 255, 77] (by decide)⟩

/-! ### Claim theorems (progress cadence) -/

/-- C6 (corrected), counterexample to the original claim: a session-scoped
`request_key` of 3 chunks yields three `key_chunk` messages immediately followed
by `session_complete` — no progress message of any kind exists in the session
protocol, contrary to the claim's example of a progress(3,3) message before
session_complete(3) on the session-scoped shape. -/
theorem c6_counterexample_session_no_progress :
    (generate_and_send_keys rngZero 3).map msgType =
      ["key_chunk", "key_chunk", "key_chunk", "session_complete"] ∧
    "progress" ∉ (generate_and_send_keys rngZero 3).map msgType := by
  have h : (generate_and_send_keys rngZero 3).map msgType =
      ["key_chunk", "key_chunk", "key_chunk", "session_complete"] := rfl
  exact ⟨h, by rw [h]; decide⟩

/-- C6 (amended): on the stateless streaming endpoint only, with a fully
successful random source and n > 0, progress messages are emitted exactly after
the chunks whose index i satisfies `i % 100 = 0` or i is the last index, each
carrying `(i+1, total)`; successive `current` values are non-decreasing and the
final progress message's `current` equals the transaction total. The
session-scoped endpoint emits no progress messages at all. -/
theorem c6_progress_cadence_amended (rng : Rng) (n : Nat)
    (h1 : 0 < n) (hs : ∀ k, rng.fails k = false) :
    progressList (send_key_chunks rng n) =
      ((List.range (min n 100000)).filter
          fun i => i % 100 == 0 || i == min n 100000 - 1).map
        (fun i => (i + 1, min n 100000)) ∧
    List.Chain' (· ≤ ·) ((progressList (send_key_chunks rng n)).map Prod.fst) ∧
    (progressList (send_key_chunks rng n)).getLast? =
      some (min n 100000, min n 100000) := by
  have hm : 0 < min n 100000 := by omega
  have hformula : progressList (send_key_chunks rng n) =
      ((List.range (min n 100000)).filter
          fun i => i % 100 == 0 || i == min n 100000 - 1).map
        fun i => (i + 1, min n 100000) := by
    rw [send_key_chunks, List.range_eq_range']
    exact sendAux_progress rng (min n 100000) hs (min n 100000) 0
  refine ⟨hformula, ?_, ?_⟩
  · rw [hformula, List.map_map]
    have hpw : List.Pairwise (· < ·)
        ((List.range (min n 100000)).filter
          fun i => i % 100 == 0 || i == min n 100000 - 1) :=
      List.Pairwise.sublist (List.filter_sublist _) (List.pairwise_lt_range _)
    have hpw2 : List.Pairwise (· ≤ ·)
        (((List.range (min n 100000)).filter
            fun i => i % 100 == 0 || i == min n 100000 - 1).map
          (Prod.fst ∘ fun i => (i + 1, min n 100000))) := by
      rw [List.pairwise_map]
      exact hpw.imp (fun hab => by simpa using Nat.le_of_lt hab)
    exact hpw2.chain'
  · have hp : ((min n 100000 - 1) % 100 == 0 ||
        (min n 100000 - 1) == min n 100000 - 1) = true := by simp
    rw [hformula, getLast?_map_eq, filter_range_getLast _ _ hm hp]
    have hsucc : min n 100000 - 1 + 1 = min n 100000 := by omega
    simp [hsucc]

/-- Witness for C6's amended theorem at `rng = rngZero`, `n = 3`. -/
theorem c6_witness :
    (0 < 3 ∧ ∀ k, rngZero.fails k = false) ∧
    (progressList (send_key_chunks rngZero 3) =
        ((List.range (min 3 100000)).filter
            fun i => i % 100 == 0 || i == min 3 100000 - 1).map
          (fun i => (i + 1, min 3 100000)) ∧
      List.Chain' (· ≤ ·) ((progressList (send_key_chunks rngZero 3)).map Prod.fst) ∧
      (progressList (send_key_chunks rngZero 3)).getLast? =
        some (min 3 100000, min 3 100000)) :=
  ⟨⟨by decide, fun _ => rfl⟩,
    c6_progress_cadence_amended rngZero 3 (by decide) (fun _ => rfl)⟩

/-! ### Claim theorems (bulk route) -/

theorem key_path_ne_ws (s : List Char) :
    ('/' :: 'k' :: 'e' :: 'y' :: '/' :: s) ≠ "/ws/key".toList := by
  have htl : "/ws/key".toList = ['/', 'w', 's', '/', 'k', 'e', 'y'] := rfl
  rw [htl]
  intro he
  injection he with h1 h2
  injection h2 with h3 h4
  exact absurd h3 (by decide)

theorem main_fetch_key_route (rng : Rng) (s : List Char) :
    main_fetch rng ⟨false, '/' :: 'k' :: 'e' :: 'y' :: '/' :: s, none⟩ =
      match getrandom rng 0
          ((min ((parseUsize (trimKeyMatches s)).getD 1) 1000) * CHUNK_SIZE) with
      | none => .response (cors_headers (errorResponse "Random generation failed" 500))
      | some key_data =>
          .response { status := 200,
                      headers := [("Content-Type", "application/octet-stream"),
                                  ("Access-Control-Allow-Origin", "*")],
                      body := .bytes key_data } := rfl

/-- C7 (corrected), counterexample to the original claim: the bulk response for
`GET /key/2` carries no `X-Chunk-Count` and no `X-Chunk-Size` header — the code
sets only `Content-Type` and `Access-Control-Allow-Origin`. -/
theorem c7_counterexample_missing_chunk_headers :
    (resultHeaders (main_fetch rngZero ⟨false, "/key/2".toList, none⟩)).lookup
        "X-Chunk-Count" = none ∧
    (resultHeaders (main_fetch rngZero ⟨false, "/key/2".toList, none⟩)).lookup
        "X-Chunk-Size" = none :=
  ⟨rfl, rfl⟩

/-- C7 (amended): for a parsed in-range count c (c ≤ 1000) and a successful
random source, `GET /key/{count}` returns status 200 with a body of exactly
`c * CHUNK_SIZE` bytes (`CHUNK_SIZE = 16384`); its headers are exactly
`Content-Type: application/octet-stream` and `Access-Control-Allow-Origin: *`,
so no `X-Chunk-Count` or `X-Chunk-Size` header is present. -/
theorem c7_bulk_body_amended (rng : Rng) (s : List Char) (c : Nat)
    (hparse : parseUsize (trimKeyMatches s) = some c)
    (hc : c ≤ 1000)
    (hok : rng.fails 0 = false) :
    resultStatus (main_fetch rng ⟨false, '/' :: 'k' :: 'e' :: 'y' :: '/' :: s, none⟩) = 200 ∧
    byteLen (resultBody (main_fetch rng
        ⟨false, '/' :: 'k' :: 'e' :: 'y' :: '/' :: s, none⟩)) = some (c * CHUNK_SIZE) ∧
    resultHeaders (main_fetch rng ⟨false, '/' :: 'k' :: 'e' :: 'y' :: '/' :: s, none⟩) =
      [("Content-Type", "application/octet-stream"),
       ("Access-Control-Allow-Origin", "*")] := by
  have hmin : min ((parseUsize (trimKeyMatches s)).getD 1) 1000 = c := by
    rw [hparse]
    simpa using Nat.min_eq_left hc
  rw [main_fetch_key_route, hmin]
  simp [getrandom, hok, resultStatus, resultHeaders, resultBody, byteLen]

/-- Witness for C7's amended theorem at `GET /key/2` with `rngZero`. -/
theorem c7_witness :
    (parseUsize (trimKeyMatches "2".toList) = some 2 ∧ (2 : Nat) ≤ 1000 ∧
      rngZero.fails 0 = false) ∧
    (resultStatus (main_fetch rngZero
        ⟨false, '/' :: 'k' :: 'e' :: 'y' :: '/' :: "2".toList, none⟩) = 200 ∧
      byteLen (resultBody (main_fetch rngZero
          ⟨false, '/' :: 'k' :: 'e' :: 'y' :: '/' :: "2".toList, none⟩)) =
        some (2 * CHUNK_SIZE) ∧
      resultHeaders (main_fetch rngZero
          ⟨false, '/' :: 'k' :: 'e' :: 'y' :: '/' :: "2".toList, none⟩) =
        [("Content-Type", "application/octet-stream"),
         ("Access-Control-Allow-Origin", "*")]) :=
  ⟨⟨by decide, by decide, rfl⟩,
    c7_bulk_body_amended rngZero "2".toList 2 (by decide) (by decide) rfl⟩

/-- C9 (confirmed): on the bulk route, a `{count}` segment that fails to parse
as a `usize` silently falls back to a count of 1 — a successful 200 response
with one `CHUNK_SIZE`-byte chunk, not an error — and a parsed count of 0 yields
a successful empty (0-byte) body. -/
theorem c9_bulk_count_fallback (rng : Rng) (s : List Char)
    (hok : rng.fails 0 = false) :
    (parseUsize (trimKeyMatches s) = none →
      resultStatus (main_fetch rng ⟨false, '/' :: 'k' :: 'e' :: 'y' :: '/' :: s, none⟩) = 200 ∧
      byteLen (resultBody (main_fetch rng
          ⟨false, '/' :: 'k' :: 'e' :: 'y' :: '/' :: s, none⟩)) = some CHUNK_SIZE) ∧
    (parseUsize (trimKeyMatches s) = some 0 →
      resultStatus (main_fetch rng ⟨false, '/' :: 'k' :: 'e' :: 'y' :: '/' :: s, none⟩) = 200 ∧
      byteLen (resultBody (main_fetch rng
          ⟨false, '/' :: 'k' :: 'e' :: 'y' :: '/' :: s, none⟩)) = some 0) := by
  constructor
  · intro hparse
    have hmin : min ((parseUsize (trimKeyMatches s)).getD 1) 1000 = 1 := by
      rw [hparse]
      decide
    rw [main_fetch_key_route, hmin]
    simp [getrandom, hok, resultStatus, resultBody, byteLen]
  · intro hparse
    have hmin : min ((parseUsize (trimKeyMatches s)).getD 1) 1000 = 0 := by
      rw [hparse]
      decide
    rw [main_fetch_key_route, hmin]
    simp [getrandom, hok, resultStatus, resultBody, byteLen]

/-- Witness for C9 at `GET /key/abc` (unparseable) and `GET /key/0` (zero). -/
theorem c9_witness :
    (rngZero.fails 0 = false ∧ parseUsize (trimKeyMatches "abc".toList) = none ∧
      byteLen (resultBody (main_fetch rngZero
          ⟨false, '/' :: 'k' :: 'e' :: 'y' :: '/' :: "abc".toList, none⟩)) =
        some CHUNK_SIZE) ∧
    (parseUsize (trimKeyMatches "0".toList) = some 0 ∧
      byteLen (resultBody (main_fetch rngZero
          ⟨false, '/' :: 'k' :: 'e' :: 'y' :: '/' :: "0".toList, none⟩)) = some 0) :=
  ⟨⟨rfl, by decide,
      ((c9_bulk_count_fallback rngZero "abc".toList rfl).1 (by decide)).2⟩,
    ⟨by decide, ((c9_bulk_count_fallback rngZero "0".toList rfl).2 (by decide)).2⟩⟩

/-! ### Claim theorem (entropy failure) -/

/-- C8 (confirmed): when the random source fails, the current request aborts and
is reported. With the first failure at call j: the stateless stream consists of
the j chunks generated before the failure followed by exactly one `error`
message and no `complete`; the session-scoped stream likewise ends in exactly
one `error` with no `session_complete`; the bulk route returns the 500 error
response whose body is text, not key bytes; and the session attachment is
untouched, so a subsequent `request_key` against the same attachment with a
healthy entropy source produces the full normal message sequence. -/
theorem c8_entropy_failure_handling
    (rng rngB rngS : Rng) (att : SessionState) (n m n2 j : Nat) (s : List Char)
    (hj : rng.fails j = true) (hbefore : ∀ k, k < j → rng.fails k = false)
    (hjn : j < min n 100000) (hjm : j < m)
    (hB : rngB.fails 0 = true)
    (hS : ∀ k, rngS.fails k = false) :
    send_key_chunks rng n =
      ((List.range' 0 j).flatMap fun k =>
          WsOut.binary (chunkData rng k) ::
            (if k % 100 == 0 || k == min n 100000 - 1
              then [WsOut.progress (k + 1) (min n 100000)] else []))
        ++ [WsOut.error "Random generation failed"] ∧
    (send_key_chunks rng n).countP isWsError = 1 ∧
    (send_key_chunks rng n).countP isWsComplete = 0 ∧
    generate_and_send_keys rng m =
      ((List.range' 0 j).map fun k =>
          ServerMessage.keyChunk k (base64_encode (chunkData rng k)))
        ++ [ServerMessage.error "Random generation failed"] ∧
    main_fetch rngB ⟨false, '/' :: 'k' :: 'e' :: 'y' :: '/' :: s, none⟩ =
      .response (cors_headers (errorResponse "Random generation failed" 500)) ∧
    (websocket_message rng att (.client (.requestKey m))).1 = att ∧
    websocket_message rngS att (.client (.requestKey n2)) =
      (att, (((List.range n2).map fun k =>
          ServerMessage.keyChunk k (base64_encode (chunkData rngS k)))
        ++ [ServerMessage.sessionComplete n2]).map SessionOut.msg) := by
  have ha : send_key_chunks rng n =
      ((List.range' 0 j).flatMap fun k =>
          WsOut.binary (chunkData rng k) ::
            (if k % 100 == 0 || k == min n 100000 - 1
              then [WsOut.progress (k + 1) (min n 100000)] else []))
        ++ [WsOut.error "Random generation failed"] := by
    rw [send_key_chunks]
    have := sendAux_failure rng (min n 100000) j hj hbefore (min n 100000) 0
      (by omega) (by omega)
    simpa using this
  have hblockE : ∀ k : Nat, (WsOut.binary (chunkData rng k) ::
      (if k % 100 == 0 || k == min n 100000 - 1
        then [WsOut.progress (k + 1) (min n 100000)] else [])).countP isWsError = 0 := by
    intro k
    rw [List.countP_cons]
    simp [countP_ite_progress _ _ _ isWsError rfl, isWsError]
  have hblockC : ∀ k : Nat, (WsOut.binary (chunkData rng k) ::
      (if k % 100 == 0 || k == min n 100000 - 1
        then [WsOut.progress (k + 1) (min n 100000)] else [])).countP isWsComplete = 0 := by
    intro k
    rw [List.countP_cons]
    simp [countP_ite_progress _ _ _ isWsComplete rfl, isWsComplete]
  refine ⟨ha, ?_, ?_, ?_, ?_, step_preserves_att rng att _, ?_⟩
  · rw [ha, List.countP_append, countP_flatMap_zero _ _ _ hblockE]
    simp [List.countP_cons, isWsError]
  · rw [ha, List.countP_append, countP_flatMap_zero _ _ _ hblockC]
    simp [List.countP_cons, isWsComplete]
  · rw [generate_and_send_keys]
    have := genAux_failure rng m j hj hbefore m 0 (by omega) (by omega)
    simpa using this
  · rw [main_fetch_key_route]
    simp [getrandom, hB]
  · show (att, (generate_and_send_keys rngS n2).map SessionOut.msg) = _
    rw [generate_and_send_keys, genAux_success rngS n2 hS n2 0, List.range_eq_range']

/-- Witness for C8: failure at the very first call (`j = 0`), a session request
of 2 chunks, a stateless request of 3, the bulk path `/key/2`, and a subsequent
successful request of 1 chunk. -/
theorem c8_witness :
    ((rngFailAt 0).fails 0 = true ∧ (∀ k, k < 0 → (rngFailAt 0).fails k = false) ∧
      0 < min 3 100000 ∧ 0 < 2 ∧ (rngFailAt 0).fails 0 = true ∧
      ∀ k, rngZero.fails k = false) ∧
    ((send_key_chunks (rngFailAt 0) 3).countP isWsError = 1 ∧
      (send_key_chunks (rngFailAt 0) 3).countP isWsComplete = 0 ∧
      (websocket_message (rngFailAt 0) ⟨"s", "sender", 0⟩
          (.client (.requestKey 2))).1 = ⟨"s", "sender", 0⟩) := by
  have h := c8_entropy_failure_handling (rngFailAt 0) (rngFailAt 0) rngZero
    ⟨"s", "sender", 0⟩ 3 2 1 0 "2".toList rfl
    (fun k hk => absurd hk (Nat.not_lt_zero k)) (by decide) (by decide) rfl
    (fun _ => rfl)
  exact ⟨⟨rfl, fun k hk => absurd hk (Nat.not_lt_zero k), by decide, by decide, rfl,
      fun _ => rfl⟩,
    ⟨h.2.1, h.2.2.1, h.2.2.2.2.2.1⟩⟩

end ZksVernam
